import Mathlib

/-!
Verification of the ray-marching / SDF core of the Ray-Marching-Babylon.js
repository against its design specification.

The shader source (src/shaders/rayMarchingShaderFragment.glsl) contains three
GLSL fragment-shader variants:

* a glow-accumulating marcher (`rayMarch` with an `out float glow` parameter,
  100 steps, hit flag when `d < 100.0`);
* a binary-hit marcher (`rayMarch`, 100 steps, hit when `d < 0.05`,
  `sdfSphere` using `radius * 0.5`);
* a volumetric marcher (`computeVolumetricColor`, 64 steps, FBM-displaced
  sphere SDF, fire palette, alpha blend).

GLSL `float` values are modelled two ways:

* by real numbers (`ℝ`) for the pure distance-field / noise math, and
* by the type `F` (a real number or NaN) for the marching loops, so that the
  claims about NaN-producing distance evaluations can be stated.  Comparisons
  involving NaN are false, and arithmetic involving NaN yields NaN, following
  IEEE-754 semantics (GLSL `min`/`max`/`step`/`clamp` are modelled by their
  comparison-based definitions from the GLSL specification).  Infinities are
  not modelled; no claim refers to them.

Loops are modelled by fuel recursion with fuel equal to the literal
iteration bound; every loop driver additionally returns the number of loop
bodies executed, so that iteration-count claims are actual theorems.
-/

open Classical

noncomputable section

/-! ### Real-valued vectors and GLSL built-ins -/

/-- A GLSL `vec3` with real-valued components. -/
structure V3 where
  x : ℝ
  y : ℝ
  z : ℝ

namespace V3

/-- Componentwise addition, as GLSL `+` on `vec3`. -/
def add (u v : V3) : V3 := ⟨u.x + v.x, u.y + v.y, u.z + v.z⟩

/-- Componentwise subtraction, as GLSL `-` on `vec3`. -/
def sub (u v : V3) : V3 := ⟨u.x - v.x, u.y - v.y, u.z - v.z⟩

/-- Scalar multiplication, as GLSL `float * vec3`. -/
def smul (s : ℝ) (v : V3) : V3 := ⟨s * v.x, s * v.y, s * v.z⟩

/-- Adding a scalar to every component, as GLSL `vec3 + float`. -/
def addC (v : V3) (s : ℝ) : V3 := ⟨v.x + s, v.y + s, v.z + s⟩

/-- GLSL `dot` on `vec3`. -/
def dot (u v : V3) : ℝ := u.x * v.x + u.y * v.y + u.z * v.z

/-- GLSL `length` on `vec3`: the square root of the dot product with itself. -/
def length (v : V3) : ℝ := Real.sqrt (dot v v)

/-- Componentwise absolute value, as GLSL `abs` on `vec3`. -/
def absC (v : V3) : V3 := ⟨|v.x|, |v.y|, |v.z|⟩

/-- Componentwise `max` against a scalar, as GLSL `max(vec3, float)`. -/
def maxC (v : V3) (s : ℝ) : V3 := ⟨max v.x s, max v.y s, max v.z s⟩

/-- Componentwise floor, as GLSL `floor` on `vec3`. -/
def floorC (v : V3) : V3 := ⟨(⌊v.x⌋ : ℝ), (⌊v.y⌋ : ℝ), (⌊v.z⌋ : ℝ)⟩

/-- Componentwise fractional part, as GLSL `fract` on `vec3`
(`fract(x) = x - floor(x)`). -/
def fractC (v : V3) : V3 := ⟨Int.fract v.x, Int.fract v.y, Int.fract v.z⟩

end V3

/-- GLSL `mix(x, y, a) = x * (1 - a) + y * a` on floats. -/
def mixR (x y a : ℝ) : ℝ := x * (1 - a) + y * a

/-! ### Distance fields over the reals

`sdfBox` is from the glow-variant shader; the three `sdfSphere` versions are
the glow variant (full radius), the binary-hit variant (`radius * 0.5`) and
the volumetric variant (`radius * 0.5` plus FBM displacement). -/

/-- GLSL `sdfBox(p, b)`: signed distance from `p` to the axis-aligned box at
the origin with half-extents `b`:
`min(max(d.x, max(d.y, d.z)), 0.0) + length(max(d, 0.0))` with
`d = abs(p) - b`. -/
def sdfBox (p b : V3) : ℝ :=
  let d := V3.sub (V3.absC p) b
  min (max d.x (max d.y d.z)) 0 + V3.length (V3.maxC d 0)

namespace Glow

/-- Glow-variant `sdfSphere(p, sphereCenter, radius)`:
`length(p - sphereCenter) - radius`. -/
def sdfSphere (p c : V3) (radius : ℝ) : ℝ := V3.length (V3.sub p c) - radius

end Glow

namespace Hit

/-- Binary-hit-variant `sdfSphere(p, sphereCenter, radius)`:
`length(p - sphereCenter) - radius * 0.5`. -/
def sdfSphere (p c : V3) (radius : ℝ) : ℝ :=
  V3.length (V3.sub p c) - radius * 0.5

end Hit

namespace Vol

/-- Volumetric-variant `hash(p)`:
`fract(sin(dot(p, vec3(12.9898, 78.233, 45.164))) * 43758.5453)`. -/
def hash (p : V3) : ℝ :=
  Int.fract (Real.sin (V3.dot p ⟨12.9898, 78.233, 45.164⟩) * 43758.5453)

/-- Smooth interpolation weight `f * f * (3 - 2 * f)` used componentwise by
`noise` (the GLSL expression `u = f * f * (3.0 - 2.0 * f)`). -/
def smoothW (f : ℝ) : ℝ := f * f * (3 - 2 * f)

/-- Volumetric-variant `noise(x)`: trilinear interpolation of `hash` at the
eight corners of the lattice cell containing `x`. -/
def noise (x : V3) : ℝ :=
  let i := V3.floorC x
  let f := V3.fractC x
  let u : V3 := ⟨smoothW f.x, smoothW f.y, smoothW f.z⟩
  let a := hash i
  let b := hash (V3.add i ⟨1, 0, 0⟩)
  let c := hash (V3.add i ⟨0, 1, 0⟩)
  let d := hash (V3.add i ⟨1, 1, 0⟩)
  let e := hash (V3.add i ⟨0, 0, 1⟩)
  let f0 := hash (V3.add i ⟨1, 0, 1⟩)
  let g := hash (V3.add i ⟨0, 1, 1⟩)
  let h := hash (V3.add i ⟨1, 1, 1⟩)
  let mix1 := mixR a b u.x
  let mix2 := mixR c d u.x
  let mix3 := mixR e f0 u.x
  let mix4 := mixR g h u.x
  let mix5 := mixR mix1 mix2 u.y
  let mix6 := mixR mix3 mix4 u.y
  mixR mix5 mix6 u.z

/-- Body of the `fbm` octave loop: state is `(total, amplitude, frequency)`;
each octave does `total += amplitude * noise(p * frequency); frequency *= 2.0;
amplitude *= 0.5;`. -/
def fbmGo (p : V3) : ℕ → ℝ → ℝ → ℝ → ℝ
  | 0, total, _, _ => total
  | n + 1, total, amplitude, frequency =>
      fbmGo p n (total + amplitude * noise (V3.smul frequency p))
        (amplitude * 0.5) (frequency * 2)

/-- Volumetric-variant `fbm(p)`: 5 octaves, initial amplitude `0.5`, initial
frequency `20.0`. -/
def fbm (p : V3) : ℝ := fbmGo p 5 0 0.5 20

/-- Volumetric-variant `sdfSphere(p, sphereCenter, radius)`:
`length(p - sphereCenter) - radius * 0.5 + fbm(p * -3.0 + time) * 0.25`. -/
def sdfSphere (p c : V3) (radius time : ℝ) : ℝ :=
  (V3.length (V3.sub p c) - radius * 0.5) +
    fbm (V3.addC (V3.smul (-3) p) time) * 0.25

end Vol

/-! ### GLSL floats with NaN

`F` models a GLSL `float` as either a real number or NaN.  Arithmetic with a
NaN operand yields NaN; every ordered comparison with a NaN operand is false.
GLSL `min`, `max`, `step` and `clamp` are modelled by their comparison-based
definitions from the GLSL specification (`min(x,y) = y < x ? y : x`,
`max(x,y) = x < y ? y : x`, `step(edge,x) = x < edge ? 0 : 1`,
`clamp(x,lo,hi) = min(max(x,lo),hi)`), which fixes their NaN behaviour. -/

/-- A GLSL `float` value: a real number or NaN. -/
inductive F where
  | nan : F
  | val : ℝ → F

namespace F

/-- Addition; NaN-absorbing. -/
def add : F → F → F
  | val a, val b => val (a + b)
  | _, _ => nan

/-- Subtraction; NaN-absorbing. -/
def sub : F → F → F
  | val a, val b => val (a - b)
  | _, _ => nan

/-- Multiplication; NaN-absorbing. -/
def mul : F → F → F
  | val a, val b => val (a * b)
  | _, _ => nan

/-- Division; NaN-absorbing (division of reals is the total real division). -/
def div : F → F → F
  | val a, val b => val (a / b)
  | _, _ => nan

instance : Add F := ⟨add⟩
instance : Sub F := ⟨sub⟩
instance : Mul F := ⟨mul⟩
instance : Div F := ⟨div⟩

/-- Strict order; false whenever an operand is NaN. -/
def lt : F → F → Prop
  | val a, val b => a < b
  | _, _ => False

/-- The GLSL comparison `x > y`, i.e. `lt y x`. -/
def gt (x y : F) : Prop := lt y x

/-- Non-strict order on values; false whenever an operand is NaN. -/
def le : F → F → Prop
  | val a, val b => a ≤ b
  | _, _ => False

/-- GLSL `sqrt`; NaN on NaN or negative input. -/
def sqrtF : F → F
  | val a => if a < 0 then nan else val (Real.sqrt a)
  | nan => nan

/-- GLSL `sin`; NaN-absorbing. -/
def sinF : F → F
  | val a => val (Real.sin a)
  | nan => nan

/-- GLSL `exp`; NaN-absorbing. -/
def expF : F → F
  | val a => val (Real.exp a)
  | nan => nan

/-- GLSL `floor`; NaN-absorbing. -/
def floorF : F → F
  | val a => val (⌊a⌋ : ℝ)
  | nan => nan

/-- GLSL `fract(x) = x - floor(x)`; NaN-absorbing. -/
def fractF : F → F
  | val a => val (Int.fract a)
  | nan => nan

/-- GLSL `max(x, y) = x < y ? y : x`. -/
def maxF : F → F → F
  | val a, val b => val (max a b)
  | nan, _ => nan
  | val a, nan => val a

/-- GLSL `min(x, y) = y < x ? y : x`. -/
def minF : F → F → F
  | val a, val b => val (min a b)
  | nan, _ => nan
  | val a, nan => val a

/-- GLSL `step(edge, x) = x < edge ? 0.0 : 1.0`; with a NaN operand the
comparison is false, so the result is `1.0`. -/
def stepF : F → F → F
  | val e, val x => val (if x < e then 0 else 1)
  | _, _ => val 1

/-- GLSL `clamp(x, lo, hi) = min(max(x, lo), hi)`. -/
def clampF (x lo hi : F) : F := minF (maxF x lo) hi

/-- GLSL `mix(x, y, a) = x * (1 - a) + y * a`. -/
def mixF (x y a : F) : F := x * (val 1 - a) + y * a

/-- GLSL `smoothstep(e0, e1, x)`:
`t = clamp((x - e0) / (e1 - e0), 0, 1); t * t * (3 - 2 * t)`. -/
def smoothstepF (e0 e1 x : F) : F :=
  let t := clampF ((x - e0) / (e1 - e0)) (val 0) (val 1)
  t * t * (val 3 - val 2 * t)

/-- GLSL `pow(x, e)` for a nonnegative base; NaN on NaN or negative base. -/
def powF : F → ℝ → F
  | val a, e => if a < 0 then nan else val (Real.rpow a e)
  | nan, _ => nan

end F

/-- A GLSL `vec3` with possibly-NaN components. -/
structure V3F where
  x : F
  y : F
  z : F

namespace V3F

/-- Componentwise addition. -/
def add (u v : V3F) : V3F := ⟨u.x + v.x, u.y + v.y, u.z + v.z⟩

/-- Componentwise subtraction. -/
def sub (u v : V3F) : V3F := ⟨u.x - v.x, u.y - v.y, u.z - v.z⟩

/-- Scalar multiplication `float * vec3`. -/
def smul (s : F) (v : V3F) : V3F := ⟨s * v.x, s * v.y, s * v.z⟩

/-- Adding a scalar to every component, `vec3 + float`. -/
def addC (v : V3F) (s : F) : V3F := ⟨v.x + s, v.y + s, v.z + s⟩

/-- GLSL `dot`. -/
def dot (u v : V3F) : F := u.x * v.x + u.y * v.y + u.z * v.z

/-- GLSL `length`. -/
def length (v : V3F) : F := F.sqrtF (dot v v)

/-- Componentwise floor. -/
def floorC (v : V3F) : V3F := ⟨F.floorF v.x, F.floorF v.y, F.floorF v.z⟩

/-- Componentwise fract. -/
def fractC (v : V3F) : V3F := ⟨F.fractF v.x, F.fractF v.y, F.fractF v.z⟩

/-- Componentwise `mix` with a common weight. -/
def mixC (u v : V3F) (a : F) : V3F :=
  ⟨F.mixF u.x v.x a, F.mixF u.y v.y a, F.mixF u.z v.z a⟩

/-- Embedding of a real vector. -/
def ofV3 (v : V3) : V3F := ⟨F.val v.x, F.val v.y, F.val v.z⟩

end V3F

/-! ### Shader functions over `F` -/

namespace Glow

/-- Glow-variant `sdfSphere` over `F`. -/
def sdfSphereF (p c : V3F) (radius : F) : F := V3F.length (V3F.sub p c) - radius

end Glow

namespace Hit

/-- Binary-hit-variant `sdfSphere` over `F`. -/
def sdfSphereF (p c : V3F) (radius : F) : F :=
  V3F.length (V3F.sub p c) - radius * F.val 0.5

end Hit

namespace Vol

/-- Volumetric-variant `hash` over `F`. -/
def hashF (p : V3F) : F :=
  F.fractF (F.sinF (V3F.dot p ⟨F.val 12.9898, F.val 78.233, F.val 45.164⟩) *
    F.val 43758.5453)

/-- Interpolation weight `f * f * (3 - 2 * f)` over `F`. -/
def smoothWF (f : F) : F := f * f * (F.val 3 - F.val 2 * f)

/-- Volumetric-variant `noise` over `F`. -/
def noiseF (x : V3F) : F :=
  let i := V3F.floorC x
  let f := V3F.fractC x
  let u : V3F := ⟨smoothWF f.x, smoothWF f.y, smoothWF f.z⟩
  let a := hashF i
  let b := hashF (V3F.add i ⟨F.val 1, F.val 0, F.val 0⟩)
  let c := hashF (V3F.add i ⟨F.val 0, F.val 1, F.val 0⟩)
  let d := hashF (V3F.add i ⟨F.val 1, F.val 1, F.val 0⟩)
  let e := hashF (V3F.add i ⟨F.val 0, F.val 0, F.val 1⟩)
  let f0 := hashF (V3F.add i ⟨F.val 1, F.val 0, F.val 1⟩)
  let g := hashF (V3F.add i ⟨F.val 0, F.val 1, F.val 1⟩)
  let h := hashF (V3F.add i ⟨F.val 1, F.val 1, F.val 1⟩)
  let mix1 := F.mixF a b u.x
  let mix2 := F.mixF c d u.x
  let mix3 := F.mixF e f0 u.x
  let mix4 := F.mixF g h u.x
  let mix5 := F.mixF mix1 mix2 u.y
  let mix6 := F.mixF mix3 mix4 u.y
  F.mixF mix5 mix6 u.z

/-- FBM octave loop over `F`. -/
def fbmGoF (p : V3F) : ℕ → F → F → F → F
  | 0, total, _, _ => total
  | n + 1, total, amplitude, frequency =>
      fbmGoF p n (total + amplitude * noiseF (V3F.smul frequency p))
        (amplitude * F.val 0.5) (frequency * F.val 2)

/-- Volumetric-variant `fbm` over `F`. -/
def fbmF (p : V3F) : F := fbmGoF p 5 (F.val 0) (F.val 0.5) (F.val 20)

/-- Volumetric-variant `sdfSphere` over `F`. -/
def sdfSphereF (p c : V3F) (radius time : F) : F :=
  (V3F.length (V3F.sub p c) - radius * F.val 0.5) +
    fbmF (V3F.addC (V3F.smul (F.val (-3)) p) time) * F.val 0.25

/-- Volumetric-variant `firePalette(i)`:
`T = 1300 + 1300 * i; L = pow(L0, 5) * (exp(1.43876719683e5 / (T * L0)) - 1);`
`1 - exp(-5e8 / L)` componentwise with wavelengths `L0 = (7.4, 5.6, 4.4)`
(the exponent of `pow` is the literal `5.0`). -/
def firePaletteF (i : F) : V3F :=
  let T := F.val 1300 + F.val 1300 * i
  let comp := fun (lam : ℝ) =>
    let L := F.powF (F.val lam) 5 *
      (F.expF (F.val 143876.719683 / (T * F.val lam)) - F.val 1)
    F.val 1 - F.expF (F.val (-500000000) / L)
  ⟨comp 7.4, comp 5.6, comp 4.4⟩

end Vol

/-! ### The marching loops

Each loop is modelled by a step function extracted from one iteration of the
GLSL `for` body, and a fuel-recursive driver whose fuel is the literal step
bound (100 or 64).  The driver also returns the number of loop bodies
executed.  Each loop is parameterised by the distance field `sdf` it samples,
and the concrete shader entry points instantiate `sdf` with the corresponding
`sdfSphere` call, exactly as in the source. -/

/-- State of the glow-variant `rayMarch` loop: traveled distance `t`,
accumulated `glow`, and the `hit` flag. -/
structure GlowState where
  t : F
  glow : F
  hit : Bool

/-- One body of the glow-variant loop.  Returns the updated state and whether
the `t > 100000.0` break fired at the end of the body. -/
def glowStep (sdf : V3F → F) (time : F) (ro rd : V3F) (s : GlowState) :
    GlowState × Bool :=
  let p := V3F.add ro (V3F.smul s.t rd)
  let d := sdf p
  let glowContribution := F.val 1 - F.smoothstepF (F.val 0) (F.val 80) d
  let glow := s.glow + glowContribution * F.val 0.2 *
    (F.val 1 + F.val 0.3 * F.sinF time)
  let hit := if F.lt d (F.val 100) then true else s.hit
  let t := s.t + d
  (⟨t, glow, hit⟩, if F.gt t (F.val 100000) then true else false)

/-- Fuel-recursive driver of the glow-variant loop; also counts executed loop
bodies. -/
def glowGo (sdf : V3F → F) (time : F) (ro rd : V3F) :
    ℕ → GlowState → GlowState × ℕ
  | 0, s => (s, 0)
  | n + 1, s =>
      let r := glowStep sdf time ro rd s
      if r.2 then (r.1, 1)
      else
        let rest := glowGo sdf time ro rd n r.1
        (rest.1, rest.2 + 1)

/-- The glow-variant `rayMarch` with its distance field abstracted: runs the
loop for 100 steps from `t = 0`, `glow = 0`, no hit, and returns
`(hit ? t : -1.0, glow, executed iterations)`. -/
def glowMarch (sdf : V3F → F) (time : F) (ro rd : V3F) : F × F × ℕ :=
  let r := glowGo sdf time ro rd 100 ⟨F.val 0, F.val 0, false⟩
  (if r.1.hit then r.1.t else F.val (-1), r.1.glow, r.2)

namespace Glow

/-- Glow-variant `rayMarch(ro, rd, out glow)`: marches against the sphere at
`cubePosition` with radius `1.0`; returns `(return value, glow)`. -/
def rayMarch (cubePosition : V3F) (time : F) (ro rd : V3F) : F × F :=
  let r := glowMarch (fun p => sdfSphereF p cubePosition (F.val 1)) time ro rd
  (r.1, r.2.1)

end Glow

/-- Result of one body of the binary-hit loop: an early `return t`, a break
(after `t += d`), or continuation with the updated `t`. -/
inductive HitRes where
  | hit : F → HitRes
  | brk : F → HitRes
  | cont : F → HitRes

/-- The value of `t` after the iteration, in each case. -/
def HitRes.tAfter : HitRes → F
  | hit t => t
  | brk t => t
  | cont t => t

/-- One body of the binary-hit `rayMarch` loop:
hit when `d < 0.05`; otherwise `t += d` and break when `t > 1000.0`. -/
def hitStep (sdf : V3F → F) (ro rd : V3F) (t : F) : HitRes :=
  let p := V3F.add ro (V3F.smul t rd)
  let d := sdf p
  if F.lt d (F.val 0.05) then .hit t
  else
    let t2 := t + d
    if F.gt t2 (F.val 1000) then .brk t2 else .cont t2

/-- Fuel-recursive driver of the binary-hit loop; returns the GLSL return value (`t` on hit, `-1.0` otherwise) and the executed body count. -/
def hitGo (sdf : V3F → F) (ro rd : V3F) : ℕ → F → F × ℕ
  | 0, _ => (F.val (-1), 0)
  | n + 1, t =>
      match hitStep sdf ro rd t with
      | .hit t2 => (t2, 1)
      | .brk _ => (F.val (-1), 1)
      | .cont t2 =>
          let rest := hitGo sdf ro rd n t2
          (rest.1, rest.2 + 1)

/-- The binary-hit `rayMarch` with its distance field abstracted: 100 steps
from `t = 0`. -/
def hitMarch (sdf : V3F → F) (ro rd : V3F) : F × ℕ :=
  hitGo sdf ro rd 100 (F.val 0)

namespace Hit

/-- Binary-hit `rayMarch(ro, rd)`: marches against the sphere at
`spherePosition` with radius `sphereRadius`. -/
def rayMarch (spherePosition : V3F) (sphereRadius : F) (ro rd : V3F) : F :=
  (hitMarch (fun p => sdfSphereF p spherePosition sphereRadius) ro rd).1

end Hit

/-- State of the volumetric loop: traveled distance `t`, accumulated density
`td`, colour accumulator `tc`, and the last distance step `d` (the three
components of the GLSL `vec3 tc` always receive identical updates). -/
structure VolState where
  t : F
  td : F
  tc : V3F
  d : F

/-- Result of one body of the volumetric loop: break, or continue with the
updated state. -/
inductive VolRes where
  | brk : VolRes
  | cont : VolState → VolRes

/-- The state after the iteration: unchanged on break. -/
def VolRes.after (s : VolState) : VolRes → VolState
  | brk => s
  | cont s2 => s2

/-- One body of the volumetric loop with threshold `h = 0.1`:
break when `td > 1 - 1/200` or `d < 0.0001 * t` or `t > 100`; otherwise
`d = sdf(p); ld = (h - d) * step(d, h); w = (1 - td) * ld;`
`tc += w * w + 1/50; td += w + 1/200; d = max(d, 0.02); t += d * 0.5;`. -/
def volStep (sdf : V3F → F) (ro rd : V3F) (s : VolState) : VolRes :=
  if F.gt s.td (F.val (1 - 1 / 200)) ∨ F.lt s.d (F.val 0.0001 * s.t) ∨
      F.gt s.t (F.val 100) then .brk
  else
    let p := V3F.add ro (V3F.smul s.t rd)
    let d := sdf p
    let ld := (F.val 0.1 - d) * F.stepF d (F.val 0.1)
    let w := (F.val 1 - s.td) * ld
    let tc := V3F.addC s.tc (w * w + F.val 1 / F.val 50)
    let td := s.td + (w + F.val 1 / F.val 200)
    let d2 := F.maxF d (F.val 0.02)
    .cont ⟨s.t + d2 * F.val 0.5, td, tc, d2⟩

/-- Fuel-recursive driver of the volumetric loop; counts executed bodies
(a break executes no body). -/
def volGo (sdf : V3F → F) (ro rd : V3F) : ℕ → VolState → VolState × ℕ
  | 0, s => (s, 0)
  | n + 1, s =>
      match volStep sdf ro rd s with
      | .brk => (s, 0)
      | .cont s2 =>
          let rest := volGo sdf ro rd n s2
          (rest.1, rest.2 + 1)

/-- The volumetric march with its distance field abstracted: 64 steps from
`t = 0`, `td = 0`, `tc = vec3(0)`, `d = 1.0`. -/
def volMarch (sdf : V3F → F) (ro rd : V3F) : VolState × ℕ :=
  volGo sdf ro rd 64 ⟨F.val 0, F.val 0, ⟨F.val 0, F.val 0, F.val 0⟩, F.val 1⟩

namespace Vol

/-- Volumetric `computeVolumetricColor(ro, rd)`: marches against the
noise-displaced sphere and returns `(firePalette(tc.x), clamp(td, 0, 1))`. -/
def computeVolumetricColor (spherePosition : V3F) (sphereRadius time : F)
    (ro rd : V3F) : V3F × F :=
  let s := (volMarch (fun p => sdfSphereF p spherePosition sphereRadius time)
    ro rd).1
  (firePaletteF s.tc.x, F.clampF s.td (F.val 0) (F.val 1))

/-- The final colour of the volumetric shader:
`mix(sceneColor, volumetricColor, alpha)`. -/
def mainColor (sceneColor : V3F) (spherePosition : V3F) (sphereRadius time : F)
    (ro rd : V3F) : V3F :=
  let v := computeVolumetricColor spherePosition sphereRadius time ro rd
  V3F.mixC sceneColor v.1 v.2

end Vol

/-! ### Basic lemmas about `F` -/

@[simp] theorem F_add_val (a b : ℝ) : F.val a + F.val b = F.val (a + b) := rfl

@[simp] theorem F_add_nan_left (x : F) : F.nan + x = F.nan := rfl

@[simp] theorem F_add_nan_right (x : F) : x + F.nan = F.nan := by
  cases x <;> rfl

@[simp] theorem F_sub_val (a b : ℝ) : F.val a - F.val b = F.val (a - b) := rfl

@[simp] theorem F_sub_nan_left (x : F) : F.nan - x = F.nan := rfl

@[simp] theorem F_sub_nan_right (x : F) : x - F.nan = F.nan := by
  cases x <;> rfl

@[simp] theorem F_mul_val (a b : ℝ) : F.val a * F.val b = F.val (a * b) := rfl

@[simp] theorem F_mul_nan_left (x : F) : F.nan * x = F.nan := rfl

@[simp] theorem F_mul_nan_right (x : F) : x * F.nan = F.nan := by
  cases x <;> rfl

@[simp] theorem F_div_val (a b : ℝ) : F.val a / F.val b = F.val (a / b) := rfl

@[simp] theorem F_div_nan_left (x : F) : F.nan / x = F.nan := rfl

@[simp] theorem F_div_nan_right (x : F) : x / F.nan = F.nan := by
  cases x <;> rfl

@[simp] theorem F_lt_val (a b : ℝ) : F.lt (F.val a) (F.val b) ↔ a < b :=
  Iff.rfl

@[simp] theorem F_lt_nan_left (x : F) : ¬ F.lt F.nan x := fun h => h

@[simp] theorem F_lt_nan_right (x : F) : ¬ F.lt x F.nan := by
  cases x <;> exact fun h => h

@[simp] theorem F_gt_val (a b : ℝ) : F.gt (F.val a) (F.val b) ↔ b < a :=
  Iff.rfl

@[simp] theorem F_gt_nan_left (x : F) : ¬ F.gt F.nan x := F_lt_nan_right x

@[simp] theorem F_gt_nan_right (x : F) : ¬ F.gt x F.nan := F_lt_nan_left x

@[simp] theorem F_le_val (a b : ℝ) : F.le (F.val a) (F.val b) ↔ a ≤ b :=
  Iff.rfl

@[simp] theorem F_sinF_val (a : ℝ) : F.sinF (F.val a) = F.val (Real.sin a) :=
  rfl

@[simp] theorem F_sinF_nan : F.sinF F.nan = F.nan := rfl

@[simp] theorem F_expF_val (a : ℝ) : F.expF (F.val a) = F.val (Real.exp a) :=
  rfl

@[simp] theorem F_expF_nan : F.expF F.nan = F.nan := rfl

@[simp] theorem F_floorF_val (a : ℝ) :
    F.floorF (F.val a) = F.val (⌊a⌋ : ℝ) := rfl

@[simp] theorem F_floorF_nan : F.floorF F.nan = F.nan := rfl

@[simp] theorem F_fractF_val (a : ℝ) :
    F.fractF (F.val a) = F.val (Int.fract a) := rfl

@[simp] theorem F_fractF_nan : F.fractF F.nan = F.nan := rfl

theorem F_sqrtF_val {a : ℝ} (h : 0 ≤ a) :
    F.sqrtF (F.val a) = F.val (Real.sqrt a) := by
  simp [F.sqrtF, not_lt.mpr h]

@[simp] theorem F_sqrtF_nan : F.sqrtF F.nan = F.nan := rfl

@[simp] theorem F_maxF_val (a b : ℝ) :
    F.maxF (F.val a) (F.val b) = F.val (max a b) := rfl

@[simp] theorem F_maxF_nan_left (x : F) : F.maxF F.nan x = F.nan := rfl

@[simp] theorem F_minF_val (a b : ℝ) :
    F.minF (F.val a) (F.val b) = F.val (min a b) := rfl

@[simp] theorem F_minF_nan_left (x : F) : F.minF F.nan x = F.nan := rfl

@[simp] theorem F_stepF_val (e x : ℝ) :
    F.stepF (F.val e) (F.val x) = F.val (if x < e then 0 else 1) := rfl

@[simp] theorem F_stepF_nan_left (x : F) : F.stepF F.nan x = F.val 1 := rfl

@[simp] theorem F_mixF_val (x y a : ℝ) :
    F.mixF (F.val x) (F.val y) (F.val a) = F.val (mixR x y a) := rfl

@[simp] theorem F_mixF_nan_weight (x y : F) :
    F.mixF x y F.nan = F.nan := by
  cases x <;> cases y <;> rfl

@[simp] theorem F_clampF_nan (lo hi : F) :
    F.clampF F.nan lo hi = F.nan := by
  cases lo <;> cases hi <;> rfl

@[simp] theorem F_powF_nan (e : ℝ) : F.powF F.nan e = F.nan := rfl

theorem F_val_ne_nan (a : ℝ) : F.val a ≠ F.nan := fun h => F.noConfusion h

/-! ### Bridges between the real layer and the `F` layer -/

@[simp] theorem V3F_add_ofV3 (u v : V3) :
    V3F.add (V3F.ofV3 u) (V3F.ofV3 v) = V3F.ofV3 (V3.add u v) := rfl

@[simp] theorem V3F_sub_ofV3 (u v : V3) :
    V3F.sub (V3F.ofV3 u) (V3F.ofV3 v) = V3F.ofV3 (V3.sub u v) := rfl

@[simp] theorem V3F_smul_ofV3 (s : ℝ) (v : V3) :
    V3F.smul (F.val s) (V3F.ofV3 v) = V3F.ofV3 (V3.smul s v) := rfl

@[simp] theorem V3F_addC_ofV3 (v : V3) (s : ℝ) :
    V3F.addC (V3F.ofV3 v) (F.val s) = V3F.ofV3 (V3.addC v s) := rfl

@[simp] theorem V3F_dot_ofV3 (u v : V3) :
    V3F.dot (V3F.ofV3 u) (V3F.ofV3 v) = F.val (V3.dot u v) := rfl

theorem V3_dot_self_nonneg (v : V3) : 0 ≤ V3.dot v v := by
  have hx := mul_self_nonneg v.x
  have hy := mul_self_nonneg v.y
  have hz := mul_self_nonneg v.z
  unfold V3.dot
  linarith

@[simp] theorem V3F_length_ofV3 (v : V3) :
    V3F.length (V3F.ofV3 v) = F.val (V3.length v) := by
  unfold V3F.length V3.length
  rw [V3F_dot_ofV3, F_sqrtF_val (V3_dot_self_nonneg v)]

@[simp] theorem V3F_floorC_ofV3 (v : V3) :
    V3F.floorC (V3F.ofV3 v) = V3F.ofV3 (V3.floorC v) := rfl

@[simp] theorem V3F_fractC_ofV3 (v : V3) :
    V3F.fractC (V3F.ofV3 v) = V3F.ofV3 (V3.fractC v) := rfl

@[simp] theorem Glow_sdfSphereF_ofV3 (p c : V3) (r : ℝ) :
    Glow.sdfSphereF (V3F.ofV3 p) (V3F.ofV3 c) (F.val r) =
      F.val (Glow.sdfSphere p c r) := by
  unfold Glow.sdfSphereF Glow.sdfSphere
  rw [V3F_sub_ofV3, V3F_length_ofV3]
  rfl

@[simp] theorem Hit_sdfSphereF_ofV3 (p c : V3) (r : ℝ) :
    Hit.sdfSphereF (V3F.ofV3 p) (V3F.ofV3 c) (F.val r) =
      F.val (Hit.sdfSphere p c r) := by
  unfold Hit.sdfSphereF Hit.sdfSphere
  rw [V3F_sub_ofV3, V3F_length_ofV3]
  rfl

@[simp] theorem Vol_hashF_ofV3 (p : V3) :
    Vol.hashF (V3F.ofV3 p) = F.val (Vol.hash p) := rfl

@[simp] theorem Vol_smoothWF_val (f : ℝ) :
    Vol.smoothWF (F.val f) = F.val (Vol.smoothW f) := rfl

@[simp] theorem Vol_noiseF_ofV3 (x : V3) :
    Vol.noiseF (V3F.ofV3 x) = F.val (Vol.noise x) := rfl

@[simp] theorem Vol_fbmGoF_ofV3 (p : V3) (n : ℕ) (total amp freq : ℝ) :
    Vol.fbmGoF (V3F.ofV3 p) n (F.val total) (F.val amp) (F.val freq) =
      F.val (Vol.fbmGo p n total amp freq) := by
  induction n generalizing total amp freq with
  | zero => rfl
  | succ n ih =>
      unfold Vol.fbmGoF Vol.fbmGo
      rw [V3F_smul_ofV3, Vol_noiseF_ofV3, F_mul_val, F_add_val, F_mul_val,
        F_mul_val, ih]

@[simp] theorem Vol_fbmF_ofV3 (p : V3) :
    Vol.fbmF (V3F.ofV3 p) = F.val (Vol.fbm p) := by
  unfold Vol.fbmF Vol.fbm
  exact Vol_fbmGoF_ofV3 p 5 0 0.5 20

@[simp] theorem Vol_sdfSphereF_ofV3 (p c : V3) (r time : ℝ) :
    Vol.sdfSphereF (V3F.ofV3 p) (V3F.ofV3 c) (F.val r) (F.val time) =
      F.val (Vol.sdfSphere p c r time) := by
  unfold Vol.sdfSphereF Vol.sdfSphere
  rw [V3F_sub_ofV3, V3F_length_ofV3, V3F_smul_ofV3, V3F_addC_ofV3,
    Vol_fbmF_ofV3]
  rfl

/-! ### Ranges of the noise primitives -/

theorem Vol_hash_mem (p : V3) : 0 ≤ Vol.hash p ∧ Vol.hash p < 1 :=
  ⟨Int.fract_nonneg _, Int.fract_lt_one _⟩

theorem Vol_smoothW_mem {f : ℝ} (h0 : 0 ≤ f) (h1 : f < 1) :
    0 ≤ Vol.smoothW f ∧ Vol.smoothW f ≤ 1 := by
  unfold Vol.smoothW
  constructor
  · have h3 : 0 ≤ 3 - 2 * f := by linarith
    positivity
  · nlinarith [sq_nonneg (1 - f), mul_nonneg (sq_nonneg (1 - f))
      (by linarith : (0:ℝ) ≤ 1 + 2 * f)]

theorem mixR_mem {x y a : ℝ} (hx0 : 0 ≤ x) (hx1 : x < 1) (hy0 : 0 ≤ y)
    (hy1 : y < 1) (ha0 : 0 ≤ a) (ha1 : a ≤ 1) :
    0 ≤ mixR x y a ∧ mixR x y a < 1 := by
  unfold mixR
  constructor
  · have h1 : 0 ≤ 1 - a := by linarith
    positivity
  · rcases eq_or_lt_of_le ha1 with h | h
    · subst h; nlinarith
    · nlinarith [mul_nonneg hy0 ha0, mul_lt_mul_of_pos_right hx1
        (by linarith : (0:ℝ) < 1 - a)]

theorem Vol_noise_mem (x : V3) : 0 ≤ Vol.noise x ∧ Vol.noise x < 1 := by
  unfold Vol.noise
  have hux := Vol_smoothW_mem (Int.fract_nonneg x.x) (Int.fract_lt_one x.x)
  have huy := Vol_smoothW_mem (Int.fract_nonneg x.y) (Int.fract_lt_one x.y)
  have huz := Vol_smoothW_mem (Int.fract_nonneg x.z) (Int.fract_lt_one x.z)
  have h1 := mixR_mem (Vol_hash_mem (V3.floorC x)).1 (Vol_hash_mem _).2
    (Vol_hash_mem (V3.add (V3.floorC x) ⟨1, 0, 0⟩)).1 (Vol_hash_mem _).2
    hux.1 hux.2
  have h2 := mixR_mem (Vol_hash_mem (V3.add (V3.floorC x) ⟨0, 1, 0⟩)).1
    (Vol_hash_mem _).2 (Vol_hash_mem (V3.add (V3.floorC x) ⟨1, 1, 0⟩)).1
    (Vol_hash_mem _).2 hux.1 hux.2
  have h3 := mixR_mem (Vol_hash_mem (V3.add (V3.floorC x) ⟨0, 0, 1⟩)).1
    (Vol_hash_mem _).2 (Vol_hash_mem (V3.add (V3.floorC x) ⟨1, 0, 1⟩)).1
    (Vol_hash_mem _).2 hux.1 hux.2
  have h4 := mixR_mem (Vol_hash_mem (V3.add (V3.floorC x) ⟨0, 1, 1⟩)).1
    (Vol_hash_mem _).2 (Vol_hash_mem (V3.add (V3.floorC x) ⟨1, 1, 1⟩)).1
    (Vol_hash_mem _).2 hux.1 hux.2
  have h5 := mixR_mem h1.1 h1.2 h2.1 h2.2 huy.1 huy.2
  have h6 := mixR_mem h3.1 h3.2 h4.1 h4.2 huy.1 huy.2
  exact mixR_mem h5.1 h5.2 h6.1 h6.2 huz.1 huz.2

theorem Vol_fbmGo_bounds (p : V3) :
    ∀ (n : ℕ) (total amp freq : ℝ), 0 ≤ amp →
      total ≤ Vol.fbmGo p n total amp freq ∧
        Vol.fbmGo p n total amp freq ≤ total + 2 * amp * (1 - (1 / 2) ^ n) := by
  intro n
  induction n with
  | zero =>
      intro total amp freq _
      unfold Vol.fbmGo
      norm_num
  | succ n ih =>
      intro total amp freq hamp
      unfold Vol.fbmGo
      have hn := Vol_noise_mem (V3.smul freq p)
      have hamp2 : (0:ℝ) ≤ amp * 0.5 := by linarith
      have h := ih (total + amp * Vol.noise (V3.smul freq p)) (amp * 0.5)
        (freq * 2) hamp2
      have hpow : (0:ℝ) ≤ (1 / 2 : ℝ) ^ n := by positivity
      have hterm0 : 0 ≤ amp * Vol.noise (V3.smul freq p) :=
        mul_nonneg hamp hn.1
      have hterm1 : amp * Vol.noise (V3.smul freq p) ≤ amp := by
        nlinarith [hn.2]
      constructor
      · linarith [h.1]
      · calc Vol.fbmGo p n (total + amp * Vol.noise (V3.smul freq p))
              (amp * 0.5) (freq * 2)
            ≤ total + amp * Vol.noise (V3.smul freq p) +
                2 * (amp * 0.5) * (1 - (1 / 2) ^ n) := h.2
          _ ≤ total + 2 * amp * (1 - (1 / 2) ^ (n + 1)) := by
              have : (1 / 2 : ℝ) ^ (n + 1) = (1 / 2) * (1 / 2) ^ n := by
                ring
              rw [this]
              linarith

theorem Vol_fbm_bounds (p : V3) : 0 ≤ Vol.fbm p ∧ Vol.fbm p ≤ 0.96875 := by
  have h := Vol_fbmGo_bounds p 5 0 0.5 20 (by norm_num)
  unfold Vol.fbm
  constructor
  · exact h.1
  · calc Vol.fbmGo p 5 0 0.5 20
        ≤ 0 + 2 * 0.5 * (1 - (1 / 2) ^ 5) := h.2
      _ = 0.96875 := by norm_num

/-- Claim C10: for every input point `p`, `hash p` lies in `[0, 1)`,
`noise p` — a convex interpolation of hash values — lies in `[0, 1)`, and
`fbm p` (5 octaves with amplitudes 0.5, 0.25, 0.125, 0.0625, 0.03125) lies in
`[0, 0.96875]` and hence never exceeds 1. -/
theorem fbm_hash_noise_range (p : V3) :
    (0 ≤ Vol.hash p ∧ Vol.hash p < 1) ∧
    (0 ≤ Vol.noise p ∧ Vol.noise p < 1) ∧
    (0 ≤ Vol.fbm p ∧ Vol.fbm p ≤ 0.96875 ∧ Vol.fbm p ≤ 1) :=
  ⟨Vol_hash_mem p, Vol_noise_mem p, (Vol_fbm_bounds p).1,
    (Vol_fbm_bounds p).2, le_trans (Vol_fbm_bounds p).2 (by norm_num)⟩

/-! ### The box distance field (claim C4) -/

theorem V3_length_zero : V3.length ⟨0, 0, 0⟩ = 0 := by
  unfold V3.length V3.dot
  norm_num

theorem V3_length_smul (s : ℝ) (v : V3) :
    V3.length (V3.smul s v) = |s| * V3.length v := by
  unfold V3.length V3.smul V3.dot
  rw [show s * v.x * (s * v.x) + s * v.y * (s * v.y) + s * v.z * (s * v.z) =
    s ^ 2 * (v.x * v.x + v.y * v.y + v.z * v.z) by ring,
    Real.sqrt_mul (sq_nonneg s), Real.sqrt_sq_eq_abs]

/-- Claim C4: for every point outside the axis-aligned box with half-extents
`b` centered at the origin, `sdfBox p b ≥ 0`; for every point strictly inside,
`sdfBox p b ≤ 0`; and the box with half-extents `(1,1,1)` queried at the
origin gives `-1`. -/
theorem sdfBox_sign (p b : V3) :
    ((b.x < |p.x| ∨ b.y < |p.y| ∨ b.z < |p.z|) → 0 ≤ sdfBox p b) ∧
    ((|p.x| < b.x ∧ |p.y| < b.y ∧ |p.z| < b.z) → sdfBox p b ≤ 0) ∧
    sdfBox ⟨0, 0, 0⟩ ⟨1, 1, 1⟩ = -1 := by
  refine ⟨?_, ?_, ?_⟩
  · intro hout
    unfold sdfBox V3.absC V3.sub V3.maxC V3.length V3.dot
    dsimp only
    have hmaxpos : (0:ℝ) <
        max (|p.x| - b.x) (max (|p.y| - b.y) (|p.z| - b.z)) := by
      rcases hout with h | h | h
      · exact lt_max_of_lt_left (by linarith)
      · exact lt_max_of_lt_right (lt_max_of_lt_left (by linarith))
      · exact lt_max_of_lt_right (lt_max_of_lt_right (by linarith))
    rw [min_eq_right hmaxpos.le]
    simp [Real.sqrt_nonneg]
  · intro ⟨hx, hy, hz⟩
    unfold sdfBox V3.absC V3.sub V3.maxC V3.length V3.dot
    dsimp only
    have hx0 : max (|p.x| - b.x) 0 = 0 := max_eq_right (by linarith)
    have hy0 : max (|p.y| - b.y) 0 = 0 := max_eq_right (by linarith)
    have hz0 : max (|p.z| - b.z) 0 = 0 := max_eq_right (by linarith)
    rw [hx0, hy0, hz0]
    have : Real.sqrt ((0:ℝ) * 0 + 0 * 0 + 0 * 0) = 0 := by norm_num
    rw [this, add_zero]
    exact min_le_right _ _
  · unfold sdfBox V3.absC V3.sub V3.maxC V3.length V3.dot
    dsimp only
    norm_num

/-- Witness for `sdfBox_sign`: the point `(2,0,0)` is outside the unit box
and gets a nonnegative distance; the origin is strictly inside and gets a
nonpositive one. -/
theorem sdfBox_sign_witness :
    0 ≤ sdfBox ⟨2, 0, 0⟩ ⟨1, 1, 1⟩ ∧ sdfBox ⟨0, 0, 0⟩ ⟨1, 1, 1⟩ ≤ 0 :=
  ⟨(sdfBox_sign ⟨2, 0, 0⟩ ⟨1, 1, 1⟩).1 (by norm_num),
    (sdfBox_sign ⟨0, 0, 0⟩ ⟨1, 1, 1⟩).2.1 (by norm_num)⟩

/-! ### The sphere distance fields (claim C3) -/

theorem V3_sub_self (c : V3) : V3.sub c c = ⟨0, 0, 0⟩ := by
  unfold V3.sub
  simp

theorem V3_sub_add_cancel (c v : V3) : V3.sub (V3.add c v) c = v := by
  unfold V3.sub V3.add
  simp

theorem Hit_sdfSphere_center (c : V3) (r : ℝ) :
    Hit.sdfSphere c c r = -(r * 0.5) := by
  unfold Hit.sdfSphere
  rw [V3_sub_self, V3_length_zero]
  ring

theorem Glow_sdfSphere_center (c : V3) (r : ℝ) :
    Glow.sdfSphere c c r = -r := by
  unfold Glow.sdfSphere
  rw [V3_sub_self, V3_length_zero]
  ring

/-- Claim C3, corrected: the glow-variant `sdfSphere` (lines 91–93) satisfies
`sdfSphere(c, c, r) = -r` and `sdfSphere(c + r·d, c, r) = 0` for unit `d` and
`r ≥ 0`, but the binary-hit-variant `sdfSphere` (lines 248–250) computes
`length(p - c) - radius * 0.5`, so its value at the center is `-(r * 0.5)`
and its zero set is at distance `r * 0.5` from the center. -/
theorem sdfSphere_center_surface (c d : V3) (r : ℝ)
    (hd : V3.length d = 1) (hr : 0 ≤ r) :
    Glow.sdfSphere c c r = -r ∧
    Glow.sdfSphere (V3.add c (V3.smul r d)) c r = 0 ∧
    Hit.sdfSphere c c r = -(r * 0.5) ∧
    Hit.sdfSphere (V3.add c (V3.smul (r * 0.5) d)) c r = 0 := by
  refine ⟨?_, ?_, Hit_sdfSphere_center c r, ?_⟩
  · unfold Glow.sdfSphere
    rw [V3_sub_self, V3_length_zero]
    ring
  · unfold Glow.sdfSphere
    rw [V3_sub_add_cancel, V3_length_smul, hd, abs_of_nonneg hr]
    ring
  · unfold Hit.sdfSphere
    rw [V3_sub_add_cancel, V3_length_smul, hd,
      abs_of_nonneg (by linarith : 0 ≤ r * 0.5)]
    ring

/-- Witness for `sdfSphere_center_surface` at `c = 0`, `d = (0,0,1)`,
`r = 2`. -/
theorem sdfSphere_center_surface_witness :
    Glow.sdfSphere ⟨0, 0, 0⟩ ⟨0, 0, 0⟩ 2 = -2 ∧
    Glow.sdfSphere (V3.add ⟨0, 0, 0⟩ (V3.smul 2 ⟨0, 0, 1⟩)) ⟨0, 0, 0⟩ 2 = 0 ∧
    Hit.sdfSphere ⟨0, 0, 0⟩ ⟨0, 0, 0⟩ 2 = -(2 * 0.5) ∧
    Hit.sdfSphere (V3.add ⟨0, 0, 0⟩ (V3.smul (2 * 0.5) ⟨0, 0, 1⟩))
      ⟨0, 0, 0⟩ 2 = 0 :=
  sdfSphere_center_surface ⟨0, 0, 0⟩ ⟨0, 0, 1⟩ 2
    (by unfold V3.length V3.dot; norm_num) (by norm_num)

/-- Counterexample to claim C3 as stated: for the binary-hit-variant
`sdfSphere` with radius `1`, the value at the center is `-1/2`, not `-1`. -/
theorem hit_sdfSphere_center_not_neg_radius :
    Hit.sdfSphere ⟨0, 0, 0⟩ ⟨0, 0, 0⟩ 1 = -(1/2) ∧ (-(1/2) : ℝ) ≠ -1 := by
  constructor
  · rw [Hit_sdfSphere_center]
    norm_num
  · norm_num

/-! ### Iteration bounds (claim C1) -/

theorem glowGo_count_le (sdf : V3F → F) (time : F) (ro rd : V3F) :
    ∀ (n : ℕ) (s : GlowState), (glowGo sdf time ro rd n s).2 ≤ n := by
  intro n
  induction n with
  | zero => intro s; exact Nat.le_refl 0
  | succ n ih =>
      intro s
      unfold glowGo
      by_cases h : (glowStep sdf time ro rd s).2
      · simp [h]
      · simp only [h, if_false, Bool.false_eq_true]
        exact Nat.succ_le_succ (ih _)

theorem hitGo_count_le (sdf : V3F → F) (ro rd : V3F) :
    ∀ (n : ℕ) (t : F), (hitGo sdf ro rd n t).2 ≤ n := by
  intro n
  induction n with
  | zero => intro t; exact Nat.le_refl 0
  | succ n ih =>
      intro t
      unfold hitGo
      cases h : hitStep sdf ro rd t with
      | hit t2 => simp
      | brk t2 => simp
      | cont t2 =>
          simp only []
          exact Nat.succ_le_succ (ih _)

theorem volGo_count_le (sdf : V3F → F) (ro rd : V3F) :
    ∀ (n : ℕ) (s : VolState), (volGo sdf ro rd n s).2 ≤ n := by
  intro n
  induction n with
  | zero => intro s; exact Nat.le_refl 0
  | succ n ih =>
      intro s
      unfold volGo
      cases h : volStep sdf ro rd s with
      | brk => simp
      | cont s2 =>
          simp only []
          exact Nat.succ_le_succ (ih _)

/-- Claim C1: for every distance field (including NaN-producing ones) and
every ray, each marching loop executes no more loop bodies than its literal
bound — 100 for the glow and binary-hit `rayMarch` variants, 64 for
`computeVolumetricColor`. -/
theorem march_iteration_bound (sdf : V3F → F) (time : F) (ro rd : V3F) :
    (glowMarch sdf time ro rd).2.2 ≤ 100 ∧
    (hitMarch sdf ro rd).2 ≤ 100 ∧
    (volMarch sdf ro rd).2 ≤ 64 :=
  ⟨glowGo_count_le sdf time ro rd 100 _, hitGo_count_le sdf ro rd 100 _,
    volGo_count_le sdf ro rd 64 _⟩

/-! ### Monotonicity of the traveled distance (claim C2) -/

theorem hitStep_t_mono (c ro rd : V3) (r t : ℝ) :
    F.le (F.val t)
      (HitRes.tAfter (hitStep
        (fun p => Hit.sdfSphereF p (V3F.ofV3 c) (F.val r))
        (V3F.ofV3 ro) (V3F.ofV3 rd) (F.val t))) := by
  unfold hitStep
  dsimp only
  rw [V3F_smul_ofV3, V3F_add_ofV3, Hit_sdfSphereF_ofV3]
  set d := Hit.sdfSphere (V3.add ro (V3.smul t rd)) c r with hd
  split_ifs with h1 h2
  · simp [HitRes.tAfter]
  · simp only [F_add_val, HitRes.tAfter, F_le_val]
    rw [F_lt_val] at h1
    linarith
  · simp only [F_add_val, HitRes.tAfter, F_le_val]
    rw [F_lt_val] at h1
    linarith

theorem volStep_t_mono (c ro rd : V3) (r time t : ℝ) (td d : F) (tc : V3F) :
    F.le (F.val t)
      (VolRes.after ⟨F.val t, td, tc, d⟩ (volStep
        (fun p => Vol.sdfSphereF p (V3F.ofV3 c) (F.val r) (F.val time))
        (V3F.ofV3 ro) (V3F.ofV3 rd) ⟨F.val t, td, tc, d⟩)).t := by
  unfold volStep
  split_ifs with h1
  · simp [VolRes.after]
  · dsimp only
    rw [V3F_smul_ofV3, V3F_add_ofV3, Vol_sdfSphereF_ofV3]
    simp only [F_maxF_val, F_mul_val, F_add_val, VolRes.after, F_le_val]
    have : (0.02 : ℝ) ≤ max (Vol.sdfSphere (V3.add ro (V3.smul t rd)) c r time)
        0.02 := le_max_right _ _
    nlinarith

/-- Claim C2, corrected: in the binary-hit `rayMarch` and in
`computeVolumetricColor`, the traveled distance `t` never decreases across a
loop iteration, for every real-valued ray and primitive parameters (the glow
variant is excluded: see the counterexample, where its `t` decreases). -/
theorem march_t_monotone (c ro rd : V3) (r time t : ℝ) (td d : F) (tc : V3F) :
    F.le (F.val t)
      (HitRes.tAfter (hitStep
        (fun p => Hit.sdfSphereF p (V3F.ofV3 c) (F.val r))
        (V3F.ofV3 ro) (V3F.ofV3 rd) (F.val t))) ∧
    F.le (F.val t)
      (VolRes.after ⟨F.val t, td, tc, d⟩ (volStep
        (fun p => Vol.sdfSphereF p (V3F.ofV3 c) (F.val r) (F.val time))
        (V3F.ofV3 ro) (V3F.ofV3 rd) ⟨F.val t, td, tc, d⟩)).t :=
  ⟨hitStep_t_mono c ro rd r t, volStep_t_mono c ro rd r time t td d tc⟩

/-- Claim C8, corrected: the saturation break condition of the volumetric loop is
`td > 1 - 1/200 = 0.995`, a threshold below 1.0: from any state whose real
accumulated density exceeds `0.995` the loop breaks at once, executing zero
further bodies, whatever the distance field and the other state
components. -/
theorem vol_saturation_break (sdf : V3F → F) (ro rd : V3F) (n : ℕ)
    (t d : F) (tc : V3F) (td : ℝ) (h : 1 - 1/200 < td) :
    volStep sdf ro rd ⟨t, F.val td, tc, d⟩ = VolRes.brk ∧
    volGo sdf ro rd n ⟨t, F.val td, tc, d⟩ = (⟨t, F.val td, tc, d⟩, 0) := by
  have hb : volStep sdf ro rd ⟨t, F.val td, tc, d⟩ = VolRes.brk := by
    unfold volStep
    rw [if_pos (Or.inl (by rw [F_gt_val]; exact h))]
  refine ⟨hb, ?_⟩
  cases n with
  | zero => rfl
  | succ n =>
      unfold volGo
      rw [hb]

/-- Witness for `vol_saturation_break` at `td = 0.999` with 64 steps of
fuel. -/
theorem vol_saturation_break_witness :
    volStep (fun _ => F.val 1) (V3F.ofV3 ⟨0, 0, 0⟩) (V3F.ofV3 ⟨0, 0, 1⟩)
      ⟨F.val 0, F.val 0.999, ⟨F.val 0, F.val 0, F.val 0⟩, F.val 1⟩ =
        VolRes.brk ∧
    volGo (fun _ => F.val 1) (V3F.ofV3 ⟨0, 0, 0⟩) (V3F.ofV3 ⟨0, 0, 1⟩) 64
      ⟨F.val 0, F.val 0.999, ⟨F.val 0, F.val 0, F.val 0⟩, F.val 1⟩ =
        (⟨F.val 0, F.val 0.999, ⟨F.val 0, F.val 0, F.val 0⟩, F.val 1⟩, 0) :=
  vol_saturation_break (fun _ => F.val 1) (V3F.ofV3 ⟨0, 0, 0⟩)
    (V3F.ofV3 ⟨0, 0, 1⟩) 64 (F.val 0) (F.val 1)
    ⟨F.val 0, F.val 0, F.val 0⟩ 0.999 (by norm_num)

/-- Counterexample to claim C8 as stated: the loop breaks already at
`td = 0.996`, which is below every threshold in the range 1.0–2.0, while the
other two break conditions are false at that state; so the saturation
threshold does not lie in 1.0–2.0. -/
theorem vol_break_threshold_below_one :
    volStep (fun p => Vol.sdfSphereF p (V3F.ofV3 ⟨0, 0, 0⟩) (F.val 1)
        (F.val 0))
      (V3F.ofV3 ⟨0, 0, 0⟩) (V3F.ofV3 ⟨0, 0, 1⟩)
      ⟨F.val 0, F.val 0.996, ⟨F.val 0, F.val 0, F.val 0⟩, F.val 1⟩ =
        VolRes.brk ∧
    (0.996 : ℝ) < 1 ∧
    ¬ F.lt (F.val 1) (F.val 0.0001 * F.val 0) ∧
    ¬ F.gt (F.val 0) (F.val 100) := by
  refine ⟨?_, by norm_num, ?_, ?_⟩
  · unfold volStep
    rw [if_pos (Or.inl (by rw [F_gt_val]; norm_num))]
  · rw [F_mul_val, F_lt_val]
    norm_num
  · rw [F_gt_val]
    norm_num

/-! ### End-to-end scenario 1 (claim C7) -/

theorem hitGo_succ (sdf : V3F → F) (ro rd : V3F) (n : ℕ) (t : F) :
    hitGo sdf ro rd (n + 1) t =
      match hitStep sdf ro rd t with
      | .hit t2 => (t2, 1)
      | .brk _ => (F.val (-1), 1)
      | .cont t2 => ((hitGo sdf ro rd n t2).1, (hitGo sdf ro rd n t2).2 + 1) :=
  rfl

theorem sqrt_25 : Real.sqrt 25 = 5 := by
  rw [show (25:ℝ) = 5 ^ 2 by norm_num]
  exact Real.sqrt_sq (by norm_num)

theorem sqrt_quarter : Real.sqrt 0.25 = 0.5 := by
  rw [show (0.25:ℝ) = 0.5 ^ 2 by norm_num]
  exact Real.sqrt_sq (by norm_num)

theorem sqrt_4 : Real.sqrt 4 = 2 := by
  rw [show (4:ℝ) = 2 ^ 2 by norm_num]
  exact Real.sqrt_sq (by norm_num)

theorem hit_sdfSphere_at_start :
    Hit.sdfSphere ⟨0, 0, -5⟩ ⟨0, 0, 0⟩ 1 = 4.5 := by
  unfold Hit.sdfSphere V3.sub V3.length V3.dot
  dsimp only
  norm_num [sqrt_25]

theorem hit_sdfSphere_at_surface :
    Hit.sdfSphere ⟨0, 0, -0.5⟩ ⟨0, 0, 0⟩ 1 = 0 := by
  unfold Hit.sdfSphere V3.sub V3.length V3.dot
  dsimp only
  norm_num [Real.sqrt_inv, sqrt_4]

theorem hit_march_scenario1 :
    Hit.rayMarch (V3F.ofV3 ⟨0, 0, 0⟩) (F.val 1) (V3F.ofV3 ⟨0, 0, -5⟩)
      (V3F.ofV3 ⟨0, 0, 1⟩) = F.val 4.5 := by
  unfold Hit.rayMarch hitMarch
  rw [show (100:ℕ) = 98 + 1 + 1 from rfl, hitGo_succ]
  have hstep1 : hitStep
      (fun p => Hit.sdfSphereF p (V3F.ofV3 ⟨0, 0, 0⟩) (F.val 1))
      (V3F.ofV3 ⟨0, 0, -5⟩) (V3F.ofV3 ⟨0, 0, 1⟩) (F.val 0) =
        HitRes.cont (F.val 4.5) := by
    unfold hitStep
    dsimp only
    rw [V3F_smul_ofV3, V3F_add_ofV3,
      show V3.add ⟨0, 0, -5⟩ (V3.smul 0 ⟨0, 0, 1⟩) = ⟨0, 0, -5⟩ by
        unfold V3.add V3.smul; norm_num,
      Hit_sdfSphereF_ofV3, hit_sdfSphere_at_start]
    rw [if_neg (by rw [F_lt_val]; norm_num), F_add_val]
    rw [if_neg (by rw [F_gt_val]; norm_num)]
    norm_num
  rw [hstep1]
  dsimp only
  rw [hitGo_succ]
  have hstep2 : hitStep
      (fun p => Hit.sdfSphereF p (V3F.ofV3 ⟨0, 0, 0⟩) (F.val 1))
      (V3F.ofV3 ⟨0, 0, -5⟩) (V3F.ofV3 ⟨0, 0, 1⟩) (F.val 4.5) =
        HitRes.hit (F.val 4.5) := by
    unfold hitStep
    dsimp only
    rw [V3F_smul_ofV3, V3F_add_ofV3,
      show V3.add ⟨0, 0, -5⟩ (V3.smul 4.5 ⟨0, 0, 1⟩) = ⟨0, 0, -0.5⟩ by
        unfold V3.add V3.smul; norm_num,
      Hit_sdfSphereF_ofV3, hit_sdfSphere_at_surface]
    rw [if_pos (by rw [F_lt_val]; norm_num)]
  rw [hstep2]

/-- Claim C7, corrected: for the ray with origin `(0,0,-5)` and direction
`(0,0,1)` against the sphere at the origin with radius `1`, the binary-hit
`rayMarch` reports a hit with `t = 4.5` (positive, so `main` treats it as a
hit), and the point reached, `(0,0,-0.5)`, lies exactly on the zero set of
the `sdfSphere` of this shader, whose radius parameter is halved by the
`radius * 0.5` factor. -/
theorem hit_march_scenario1_t :
    Hit.rayMarch (V3F.ofV3 ⟨0, 0, 0⟩) (F.val 1) (V3F.ofV3 ⟨0, 0, -5⟩)
      (V3F.ofV3 ⟨0, 0, 1⟩) = F.val 4.5 ∧
    F.gt (F.val 4.5) (F.val 0) ∧
    Hit.sdfSphere ⟨0, 0, -0.5⟩ ⟨0, 0, 0⟩ 1 = 0 :=
  ⟨hit_march_scenario1, by rw [F_gt_val]; norm_num, hit_sdfSphere_at_surface⟩

/-- Counterexample to claim C7 as stated: the returned distance is `4.5`,
which is not within the hit epsilon `0.05` of the claimed value `4`. -/
theorem hit_march_scenario1_not_4 :
    Hit.rayMarch (V3F.ofV3 ⟨0, 0, 0⟩) (F.val 1) (V3F.ofV3 ⟨0, 0, -5⟩)
      (V3F.ofV3 ⟨0, 0, 1⟩) = F.val 4.5 ∧
    ¬ (|4.5 - (4:ℝ)| ≤ 0.05) :=
  ⟨hit_march_scenario1, by rw [show |4.5 - (4:ℝ)| = 0.5 by norm_num]; norm_num⟩

/-! ### The hit flag of the glow variant (claim C9)

The glow-variant `rayMarch` sets its hit flag as soon as some sampled
distance is below `100.0`.  For the ray starting at `(50,0,0)` with direction
`(0,0,1)` against the unit sphere at the origin, every sampled distance is at
least `49`, far outside any hit epsilon, yet the march returns a positive
`t`, which `main` treats as a hit. -/

theorem glowGo_succ (sdf : V3F → F) (time : F) (ro rd : V3F) (n : ℕ)
    (s : GlowState) :
    glowGo sdf time ro rd (n + 1) s =
      if (glowStep sdf time ro rd s).2 then ((glowStep sdf time ro rd s).1, 1)
      else ((glowGo sdf time ro rd n (glowStep sdf time ro rd s).1).1,
        (glowGo sdf time ro rd n (glowStep sdf time ro rd s).1).2 + 1) :=
  rfl

theorem glow_far_d (r : ℝ) :
    Glow.sdfSphere (V3.add ⟨50, 0, 0⟩ (V3.smul r ⟨0, 0, 1⟩)) ⟨0, 0, 0⟩ 1 =
      Real.sqrt (2500 + r * r) - 1 := by
  unfold Glow.sdfSphere V3.add V3.smul V3.sub V3.length V3.dot
  dsimp only
  rw [show (50 + r * 0 - 0) * (50 + r * 0 - 0) +
    (0 + r * 0 - 0) * (0 + r * 0 - 0) +
    (0 + r * 1 - 0) * (0 + r * 1 - 0) = 2500 + r * r by ring]

theorem sqrt_2500 : Real.sqrt 2500 = 50 := by
  rw [show (2500:ℝ) = 50 ^ 2 by norm_num]
  exact Real.sqrt_sq (by norm_num)

theorem glow_far_d_ge (r : ℝ) : 49 ≤ Real.sqrt (2500 + r * r) - 1 := by
  have h1 : (2500:ℝ) ≤ 2500 + r * r := by nlinarith [mul_self_nonneg r]
  have h2 := Real.sqrt_le_sqrt h1
  rw [sqrt_2500] at h2
  linarith

theorem glowStep_far_t (time g : F) (hit : Bool) (r : ℝ) :
    ((glowStep (fun p => Glow.sdfSphereF p (V3F.ofV3 ⟨0, 0, 0⟩) (F.val 1))
      time (V3F.ofV3 ⟨50, 0, 0⟩) (V3F.ofV3 ⟨0, 0, 1⟩)
      ⟨F.val r, g, hit⟩).1).t = F.val (r + (Real.sqrt (2500 + r * r) - 1)) := by
  unfold glowStep
  dsimp only
  rw [V3F_smul_ofV3, V3F_add_ofV3, Glow_sdfSphereF_ofV3, glow_far_d, F_add_val]

theorem glowStep_hit_stays (sdf : V3F → F) (time : F) (ro rd : V3F)
    (t g : F) :
    ((glowStep sdf time ro rd ⟨t, g, true⟩).1).hit = true := by
  unfold glowStep
  dsimp only
  rw [ite_self]

theorem glowGo_far_invariant (time : F) :
    ∀ (n : ℕ) (r : ℝ) (g : F), 49 ≤ r →
      ∃ (r2 : ℝ) (g2 : F) (k : ℕ),
        glowGo (fun p => Glow.sdfSphereF p (V3F.ofV3 ⟨0, 0, 0⟩) (F.val 1))
          time (V3F.ofV3 ⟨50, 0, 0⟩) (V3F.ofV3 ⟨0, 0, 1⟩) n
          ⟨F.val r, g, true⟩ = (⟨F.val r2, g2, true⟩, k) ∧ 49 ≤ r2 := by
  intro n
  induction n with
  | zero =>
      intro r g hr
      exact ⟨r, g, 0, rfl, hr⟩
  | succ n ih =>
      intro r g hr
      rw [glowGo_succ]
      set st := glowStep (fun p => Glow.sdfSphereF p (V3F.ofV3 ⟨0, 0, 0⟩)
        (F.val 1)) time (V3F.ofV3 ⟨50, 0, 0⟩) (V3F.ofV3 ⟨0, 0, 1⟩)
        ⟨F.val r, g, true⟩ with hst

      have hsteta : st.1 = ⟨F.val (r + (Real.sqrt (2500 + r * r) - 1)),
          st.1.glow, true⟩ := by
        calc st.1 = ⟨st.1.t, st.1.glow, st.1.hit⟩ := rfl
          _ = _ := by rw [hst, glowStep_far_t, glowStep_hit_stays]
      have hr2 : 49 ≤ r + (Real.sqrt (2500 + r * r) - 1) := by
        have := glow_far_d_ge r
        linarith
      by_cases hb : st.2
      · rw [if_pos hb, hsteta]
        exact ⟨_, _, 1, rfl, hr2⟩
      · rw [if_neg hb, hsteta]
        obtain ⟨r2, g2, k, heq, hge⟩ :=
          ih (r + (Real.sqrt (2500 + r * r) - 1)) st.1.glow hr2
        rw [heq]
        exact ⟨r2, g2, k + 1, rfl, hge⟩

theorem glow_center_d :
    Glow.sdfSphere (V3.add ⟨0, 0, 0⟩ (V3.smul (-1) ⟨0, 0, 1⟩)) ⟨0, 0, 0⟩ 1 =
      0 := by
  unfold Glow.sdfSphere V3.add V3.smul V3.sub V3.length V3.dot
  dsimp only
  norm_num

theorem glowGo_center_fix :
    ∀ (n : ℕ) (g : F),
      ∃ (g2 : F) (k : ℕ),
        glowGo (fun p => Glow.sdfSphereF p (V3F.ofV3 ⟨0, 0, 0⟩) (F.val 1))
          (F.val 0) (V3F.ofV3 ⟨0, 0, 0⟩) (V3F.ofV3 ⟨0, 0, 1⟩) n
          ⟨F.val (-1), g, true⟩ = (⟨F.val (-1), g2, true⟩, k) := by
  intro n
  induction n with
  | zero => intro g; exact ⟨g, 0, rfl⟩
  | succ n ih =>
      intro g
      rw [glowGo_succ]
      set st := glowStep (fun p => Glow.sdfSphereF p (V3F.ofV3 ⟨0, 0, 0⟩)
        (F.val 1)) (F.val 0) (V3F.ofV3 ⟨0, 0, 0⟩) (V3F.ofV3 ⟨0, 0, 1⟩)
        ⟨F.val (-1), g, true⟩ with hst
      have hstt : st.1.t = F.val (-1) := by
        rw [hst]
        unfold glowStep
        dsimp only
        rw [V3F_smul_ofV3, V3F_add_ofV3, Glow_sdfSphereF_ofV3, glow_center_d,
          F_add_val]
        norm_num
      have hstb : st.2 = false := by
        rw [hst]
        unfold glowStep
        dsimp only
        rw [V3F_smul_ofV3, V3F_add_ofV3, Glow_sdfSphereF_ofV3, glow_center_d,
          F_add_val]
        rw [if_neg (by rw [F_gt_val]; norm_num)]
      have hsteta : st.1 = ⟨F.val (-1), st.1.glow, true⟩ := by
        calc st.1 = ⟨st.1.t, st.1.glow, st.1.hit⟩ := rfl
          _ = _ := by rw [hstt, hst, glowStep_hit_stays]
      rw [if_neg (by rw [hstb]; exact Bool.false_ne_true), hsteta]
      obtain ⟨g2, k, heq⟩ := ih st.1.glow
      rw [heq]
      exact ⟨g2, k + 1, rfl⟩

/-- Claim C9, corrected as amended: along the ray from `(50,0,0)` in
direction `(0,0,1)`, every sampled glow-variant sphere distance is at least
`49` — never within any hit epsilon of the surface — yet the glow-variant
`rayMarch` returns a strictly positive `t`, which the `t > 0.0` test in `main`
reports as a HIT; so a reported HIT does not imply a surface intersection.
(The universally quantified form of the claim is false: a ray starting
inside the sphere samples a distance below 100 but returns `t = -1`; see the
counterexample.) -/
theorem glow_far_ray_reports_hit (time : F) :
    (∀ t : ℝ,
      49 ≤ Glow.sdfSphere (V3.add ⟨50, 0, 0⟩ (V3.smul t ⟨0, 0, 1⟩))
        ⟨0, 0, 0⟩ 1) ∧
    F.gt (Glow.rayMarch (V3F.ofV3 ⟨0, 0, 0⟩) time (V3F.ofV3 ⟨50, 0, 0⟩)
      (V3F.ofV3 ⟨0, 0, 1⟩)).1 (F.val 0) := by
  constructor
  · intro t
    rw [glow_far_d]
    exact glow_far_d_ge t
  · unfold Glow.rayMarch glowMarch
    rw [show (100:ℕ) = 99 + 1 from rfl, glowGo_succ]
    set st := glowStep (fun p => Glow.sdfSphereF p (V3F.ofV3 ⟨0, 0, 0⟩)
      (F.val 1)) time (V3F.ofV3 ⟨50, 0, 0⟩) (V3F.ofV3 ⟨0, 0, 1⟩)
      ⟨F.val 0, F.val 0, false⟩ with hst
    have hd0 : Real.sqrt (2500 + (0:ℝ) * 0) - 1 = 49 := by
      rw [show (2500 + (0:ℝ) * 0) = 2500 by norm_num, sqrt_2500]
      norm_num
    have hstt : st.1.t = F.val 49 := by
      rw [hst, glowStep_far_t]
      rw [show (0:ℝ) + (Real.sqrt (2500 + 0 * 0) - 1) =
        Real.sqrt (2500 + 0 * 0) - 1 by ring, hd0]
    have hsth : st.1.hit = true := by
      rw [hst]
      unfold glowStep
      dsimp only
      rw [V3F_smul_ofV3, V3F_add_ofV3, Glow_sdfSphereF_ofV3, glow_far_d,
        hd0]
      rw [if_pos (by rw [F_lt_val]; norm_num)]
    have hstb : st.2 = false := by
      rw [hst]
      unfold glowStep
      dsimp only
      rw [V3F_smul_ofV3, V3F_add_ofV3, Glow_sdfSphereF_ofV3, glow_far_d,
        hd0, F_add_val]
      rw [if_neg (by rw [F_gt_val]; norm_num)]
    rw [if_neg (by rw [hstb]; exact Bool.false_ne_true)]
    have hsteta : st.1 = ⟨F.val 49, st.1.glow, true⟩ := by
      calc st.1 = ⟨st.1.t, st.1.glow, st.1.hit⟩ := rfl
        _ = _ := by rw [hstt, hsth]
    rw [hsteta]
    obtain ⟨r2, g2, k, heq, hge⟩ := glowGo_far_invariant time 99 49 st.1.glow
      (le_refl 49)
    rw [heq]
    dsimp only
    rw [if_pos rfl, F_gt_val]
    linarith

/-- Counterexample to claim C9 as stated: for the ray starting at the sphere
center, the first sampled distance is `-1 < 100`, yet the glow-variant
`rayMarch` returns `-1`, which is negative, so the `t > 0.0` test in `main` does
not report a HIT. -/
theorem glow_inside_ray_not_hit :
    (Glow.rayMarch (V3F.ofV3 ⟨0, 0, 0⟩) (F.val 0) (V3F.ofV3 ⟨0, 0, 0⟩)
      (V3F.ofV3 ⟨0, 0, 1⟩)).1 = F.val (-1) ∧
    Glow.sdfSphere ⟨0, 0, 0⟩ ⟨0, 0, 0⟩ 1 < 100 ∧
    ¬ F.gt (F.val (-1)) (F.val 0) := by
  refine ⟨?_, ?_, ?_⟩
  · unfold Glow.rayMarch glowMarch
    rw [show (100:ℕ) = 99 + 1 from rfl, glowGo_succ]
    set st := glowStep (fun p => Glow.sdfSphereF p (V3F.ofV3 ⟨0, 0, 0⟩)
      (F.val 1)) (F.val 0) (V3F.ofV3 ⟨0, 0, 0⟩) (V3F.ofV3 ⟨0, 0, 1⟩)
      ⟨F.val 0, F.val 0, false⟩ with hst
    have hp0 : V3.add ⟨0, 0, 0⟩ (V3.smul 0 ⟨0, 0, 1⟩) = (⟨0, 0, 0⟩ : V3) := by
      unfold V3.add V3.smul
      norm_num
    have hstt : st.1.t = F.val (-1) := by
      rw [hst]
      unfold glowStep
      dsimp only
      rw [V3F_smul_ofV3, V3F_add_ofV3, Glow_sdfSphereF_ofV3, hp0,
        Glow_sdfSphere_center, F_add_val]
      norm_num
    have hsth : st.1.hit = true := by
      rw [hst]
      unfold glowStep
      dsimp only
      rw [V3F_smul_ofV3, V3F_add_ofV3, Glow_sdfSphereF_ofV3, hp0,
        Glow_sdfSphere_center]
      rw [if_pos (by rw [F_lt_val]; norm_num)]
    have hstb : st.2 = false := by
      rw [hst]
      unfold glowStep
      dsimp only
      rw [V3F_smul_ofV3, V3F_add_ofV3, Glow_sdfSphereF_ofV3, hp0,
        Glow_sdfSphere_center, F_add_val]
      rw [if_neg (by rw [F_gt_val]; norm_num)]
    rw [if_neg (by rw [hstb]; exact Bool.false_ne_true)]
    have hsteta : st.1 = ⟨F.val (-1), st.1.glow, true⟩ := by
      calc st.1 = ⟨st.1.t, st.1.glow, st.1.hit⟩ := rfl
        _ = _ := by rw [hstt, hsth]
    rw [hsteta]
    obtain ⟨g2, k, heq⟩ := glowGo_center_fix 99 st.1.glow
    rw [heq]
    simp
  · rw [Glow_sdfSphere_center]
    norm_num
  · rw [F_gt_val]
    norm_num

/-! ### Volumetric density accumulation (claim C6)

Every executed body of the volumetric loop adds `w + 1/200` to `td` with
`w ≥ 0`, and the loop always executes its first body (the initial state never
satisfies the break condition), so `td ≥ 1/200` after every march — also for
rays that miss the primitive by an arbitrarily wide margin. -/

theorem volGo_succ (sdf : V3F → F) (ro rd : V3F) (n : ℕ) (s : VolState) :
    volGo sdf ro rd (n + 1) s =
      match volStep sdf ro rd s with
      | .brk => (s, 0)
      | .cont s2 =>
          ((volGo sdf ro rd n s2).1, (volGo sdf ro rd n s2).2 + 1) :=
  rfl

theorem volStep_brk_of_guard (sdf : V3F → F) (ro rd : V3F) (s : VolState)
    (hg : F.gt s.td (F.val (1 - 1 / 200)) ∨ F.lt s.d (F.val 0.0001 * s.t) ∨
      F.gt s.t (F.val 100)) :
    volStep sdf ro rd s = VolRes.brk := by
  unfold volStep
  rw [if_pos hg]

theorem volStep_real_cont (c ro rd : V3) (r time t td d : ℝ) (tc : V3F)
    (hg : ¬ (F.gt (F.val td) (F.val (1 - 1 / 200)) ∨
      F.lt (F.val d) (F.val 0.0001 * F.val t) ∨
      F.gt (F.val t) (F.val 100))) :
    ∃ (t2 td2 d2 : ℝ) (tc2 : V3F),
      volStep (fun p => Vol.sdfSphereF p (V3F.ofV3 c) (F.val r) (F.val time))
        (V3F.ofV3 ro) (V3F.ofV3 rd) ⟨F.val t, F.val td, tc, F.val d⟩ =
        VolRes.cont ⟨F.val t2, F.val td2, tc2, F.val d2⟩ ∧
      td + 1 / 200 ≤ td2 := by
  have htd : td ≤ 1 - 1 / 200 := by
    have h1 := (not_or.mp hg).1
    rw [F_gt_val] at h1
    exact not_lt.mp h1
  unfold volStep
  rw [if_neg hg]
  dsimp only
  rw [V3F_smul_ofV3, V3F_add_ofV3, Vol_sdfSphereF_ofV3]
  set dd := Vol.sdfSphere (V3.add ro (V3.smul t rd)) c r time with hdd
  simp only [F_stepF_val, F_sub_val, F_mul_val, F_add_val, F_maxF_val,
    F_div_val]
  refine ⟨_, _, _, _, rfl, ?_⟩
  have hld : 0 ≤ (0.1 - dd) * (if (0.1:ℝ) < dd then 0 else 1) := by
    by_cases hc : (0.1:ℝ) < dd
    · rw [if_pos hc]
      norm_num
    · rw [if_neg hc]
      have : dd ≤ 0.1 := not_lt.mp hc
      nlinarith
  nlinarith [mul_nonneg (by linarith : (0:ℝ) ≤ 1 - td) hld]

theorem volGo_td_ge (c ro rd : V3) (r time : ℝ) :
    ∀ (n : ℕ) (t td d : ℝ) (tc : V3F),
      ∃ td2 : ℝ, td ≤ td2 ∧
        ((volGo (fun p => Vol.sdfSphereF p (V3F.ofV3 c) (F.val r)
          (F.val time)) (V3F.ofV3 ro) (V3F.ofV3 rd) n
          ⟨F.val t, F.val td, tc, F.val d⟩).1).td = F.val td2 := by
  intro n
  induction n with
  | zero => intro t td d tc; exact ⟨td, le_refl td, rfl⟩
  | succ n ih =>
      intro t td d tc
      by_cases hg : (F.gt (F.val td) (F.val (1 - 1 / 200)) ∨
        F.lt (F.val d) (F.val 0.0001 * F.val t) ∨
        F.gt (F.val t) (F.val 100))
      · rw [volGo_succ, volStep_brk_of_guard _ _ _ _ hg]
        exact ⟨td, le_refl td, rfl⟩
      · obtain ⟨t2, td2, d2, tc2, heq, hge⟩ :=
          volStep_real_cont c ro rd r time t td d tc hg
        rw [volGo_succ, heq]
        obtain ⟨td3, h1, h2⟩ := ih t2 td2 d2 tc2
        exact ⟨td3, by linarith, h2⟩

theorem vol_march_td_ge (c ro rd : V3) (r time : ℝ) :
    ∃ td2 : ℝ, 1 / 200 ≤ td2 ∧
      ((volMarch (fun p => Vol.sdfSphereF p (V3F.ofV3 c) (F.val r)
        (F.val time)) (V3F.ofV3 ro) (V3F.ofV3 rd)).1).td = F.val td2 := by
  unfold volMarch
  have hg0 : ¬ (F.gt (F.val 0) (F.val (1 - 1 / 200)) ∨
      F.lt (F.val 1) (F.val 0.0001 * F.val 0) ∨
      F.gt (F.val 0) (F.val 100)) := by
    rintro (h | h | h)
    · rw [F_gt_val] at h
      norm_num at h
    · rw [F_mul_val, F_lt_val] at h
      norm_num at h
    · rw [F_gt_val] at h
      norm_num at h
  obtain ⟨t2, td2, d2, tc2, heq, hge⟩ := volStep_real_cont c ro rd r time
    0 0 1 ⟨F.val 0, F.val 0, F.val 0⟩ hg0
  rw [show (64:ℕ) = 63 + 1 from rfl, volGo_succ, heq]
  obtain ⟨td3, h1, h2⟩ := volGo_td_ge c ro rd r time 63 t2 td2 d2 tc2
  exact ⟨td3, by linarith, h2⟩

theorem vol_alpha_ge (c ro rd : V3) (r time : ℝ) :
    F.le (F.val (1 / 200))
      ((Vol.computeVolumetricColor (V3F.ofV3 c) (F.val r) (F.val time)
        (V3F.ofV3 ro) (V3F.ofV3 rd)).2) := by
  unfold Vol.computeVolumetricColor
  obtain ⟨td2, hged, heq⟩ := vol_march_td_ge c ro rd r time
  dsimp only
  rw [heq]
  unfold F.clampF
  rw [F_maxF_val, F_minF_val, F_le_val, max_eq_left (by linarith : (0:ℝ) ≤
    td2)]
  exact le_min (by linarith) (by norm_num)

/-- Claim C6, corrected: for every real-valued ray, sphere position, radius
and time — in particular for rays missing the primitive by an arbitrarily
wide margin — the volumetric march accumulates `td ≥ 1/200` (the loop adds
`1/200` to `td` unconditionally in every executed body and always executes at
least one body), and the alpha returned by `computeVolumetricColor` is at
least `1/200 > 0`; the final pixel color is therefore
`mix(sceneColor, volumetricColor, alpha)` with a strictly positive alpha, not
the unmodified scene color. -/
theorem vol_miss_td_alpha_positive (c ro rd : V3) (r time : ℝ) :
    F.le (F.val (1 / 200))
      ((volMarch (fun p => Vol.sdfSphereF p (V3F.ofV3 c) (F.val r)
        (F.val time)) (V3F.ofV3 ro) (V3F.ofV3 rd)).1).td ∧
    F.le (F.val (1 / 200))
      ((Vol.computeVolumetricColor (V3F.ofV3 c) (F.val r) (F.val time)
        (V3F.ofV3 ro) (V3F.ofV3 rd)).2) := by
  constructor
  · obtain ⟨td2, hged, heq⟩ := vol_march_td_ge c ro rd r time
    rw [heq, F_le_val]
    exact hged
  · exact vol_alpha_ge c ro rd r time

/-- Counterexample to claim C6 as stated: the ray from `(0, 0, 10^6)` in
direction `(0,0,1)` starts a million units from the unit sphere at the origin
and walks away from it, yet the returned alpha is at least `1/200`, in
particular not `0`. -/
theorem vol_miss_alpha_not_zero :
    V3.length (V3.sub ⟨0, 0, 1000000⟩ ⟨0, 0, 0⟩) = 1000000 ∧
    F.le (F.val (1 / 200))
      ((Vol.computeVolumetricColor (V3F.ofV3 ⟨0, 0, 0⟩) (F.val 1) (F.val 0)
        (V3F.ofV3 ⟨0, 0, 1000000⟩) (V3F.ofV3 ⟨0, 0, 1⟩)).2) ∧
    ¬ ((Vol.computeVolumetricColor (V3F.ofV3 ⟨0, 0, 0⟩) (F.val 1) (F.val 0)
        (V3F.ofV3 ⟨0, 0, 1000000⟩) (V3F.ofV3 ⟨0, 0, 1⟩)).2 = F.val 0) := by
  have halpha := vol_alpha_ge ⟨0, 0, 0⟩ ⟨0, 0, 1000000⟩ ⟨0, 0, 1⟩ 1 0
  refine ⟨?_, halpha, ?_⟩
  · unfold V3.length V3.sub V3.dot
    dsimp only
    rw [show ((0:ℝ) - 0) * ((0:ℝ) - 0) + ((0:ℝ) - 0) * ((0:ℝ) - 0) +
      ((1000000:ℝ) - 0) * ((1000000:ℝ) - 0) = 1000000 ^ 2 by norm_num]
    exact Real.sqrt_sq (by norm_num)
  · intro h
    rw [h, F_le_val] at halpha
    norm_num at halpha

/-! ### NaN propagation (claim C5)

With a NaN ray-origin component every sampled distance is NaN.  Both
`rayMarch` variants then return the `-1.0` sentinel (no comparison with NaN
ever succeeds, so the hit conditions never fire).  The volumetric variant,
however, has no NaN guard: NaN flows through `ld`, `w`, `td` and `tc`, the
returned alpha is NaN, and `mix(sceneColor, volumetricColor, alpha)` makes
every component of the final color NaN. -/

theorem V3F_length_nanx (v : V3F) (h : v.x = F.nan) :
    V3F.length v = F.nan := by
  unfold V3F.length V3F.dot
  rw [h]
  simp

theorem Glow_sdfSphereF_nanx (p c : V3F) (r : F) (h : p.x = F.nan) :
    Glow.sdfSphereF p c r = F.nan := by
  unfold Glow.sdfSphereF
  rw [V3F_length_nanx (V3F.sub p c) (by simp [V3F.sub, h])]
  simp

theorem Hit_sdfSphereF_nanx (p c : V3F) (r : F) (h : p.x = F.nan) :
    Hit.sdfSphereF p c r = F.nan := by
  unfold Hit.sdfSphereF
  rw [V3F_length_nanx (V3F.sub p c) (by simp [V3F.sub, h])]
  simp

theorem Vol_smoothWF_nan : Vol.smoothWF F.nan = F.nan := by
  simp [Vol.smoothWF]

theorem F_mixF_nan_x (y a : F) : F.mixF F.nan y a = F.nan := by
  simp [F.mixF]

theorem Vol_hashF_nanx (p : V3F) (h : p.x = F.nan) : Vol.hashF p = F.nan := by
  unfold Vol.hashF V3F.dot
  rw [h]
  simp

theorem Vol_noiseF_nanx (v : V3F) (h : v.x = F.nan) :
    Vol.noiseF v = F.nan := by
  unfold Vol.noiseF V3F.floorC V3F.fractC
  dsimp only
  rw [h]
  rw [Vol_hashF_nanx ⟨F.floorF F.nan, F.floorF v.y, F.floorF v.z⟩ (by simp)]
  simp [Vol_smoothWF_nan, F_mixF_nan_x]

theorem Vol_fbmGoF_nan_total (v : V3F) :
    ∀ (n : ℕ) (amp freq : F), Vol.fbmGoF v n F.nan amp freq = F.nan := by
  intro n
  induction n with
  | zero => intro amp freq; rfl
  | succ n ih =>
      intro amp freq
      unfold Vol.fbmGoF
      rw [F_add_nan_left]
      exact ih _ _

theorem Vol_fbmF_nanx (v : V3F) (h : v.x = F.nan) : Vol.fbmF v = F.nan := by
  unfold Vol.fbmF
  rw [show (5:ℕ) = 4 + 1 from rfl]
  unfold Vol.fbmGoF
  rw [Vol_noiseF_nanx (V3F.smul (F.val 20) v) (by simp [V3F.smul, h]),
    F_mul_nan_right, F_add_nan_right]
  exact Vol_fbmGoF_nan_total v 4 _ _

theorem Vol_sdfSphereF_nanx (p c : V3F) (r time : F) (h : p.x = F.nan) :
    Vol.sdfSphereF p c r time = F.nan := by
  unfold Vol.sdfSphereF
  rw [V3F_length_nanx (V3F.sub p c) (by simp [V3F.sub, h]),
    Vol_fbmF_nanx (V3F.addC (V3F.smul (F.val (-3)) p) time)
      (by simp [V3F.addC, V3F.smul, h])]
  simp

theorem glowGo_nan_no_hit :
    ∀ (n : ℕ) (t g : F),
      ((glowGo (fun p => Glow.sdfSphereF p (V3F.ofV3 ⟨0, 0, 0⟩) (F.val 1))
        (F.val 0) ⟨F.nan, F.val 0, F.val 0⟩ (V3F.ofV3 ⟨0, 0, 1⟩) n
        ⟨t, g, false⟩).1).hit = false := by
  intro n
  induction n with
  | zero => intro t g; rfl
  | succ n ih =>
      intro t g
      rw [glowGo_succ]
      set st := glowStep (fun p => Glow.sdfSphereF p (V3F.ofV3 ⟨0, 0, 0⟩)
        (F.val 1)) (F.val 0) ⟨F.nan, F.val 0, F.val 0⟩ (V3F.ofV3 ⟨0, 0, 1⟩)
        ⟨t, g, false⟩ with hst
      have hh : st.1.hit = false := by
        rw [hst]
        unfold glowStep
        dsimp only
        rw [Glow_sdfSphereF_nanx _ _ _ (by simp [V3F.add, V3F.smul])]
        rw [if_neg (F_lt_nan_left _)]
      have hb : st.2 = false := by
        rw [hst]
        unfold glowStep
        dsimp only
        rw [Glow_sdfSphereF_nanx _ _ _ (by simp [V3F.add, V3F.smul]),
          F_add_nan_right]
        rw [if_neg (F_gt_nan_left _)]
      have hsteta : st.1 = ⟨st.1.t, st.1.glow, false⟩ := by
        calc st.1 = ⟨st.1.t, st.1.glow, st.1.hit⟩ := rfl
          _ = _ := by rw [hh]
      rw [if_neg (by rw [hb]; exact Bool.false_ne_true), hsteta]
      exact ih _ _

theorem glow_nan_returns_sentinel :
    (Glow.rayMarch (V3F.ofV3 ⟨0, 0, 0⟩) (F.val 0)
      ⟨F.nan, F.val 0, F.val 0⟩ (V3F.ofV3 ⟨0, 0, 1⟩)).1 = F.val (-1) := by
  unfold Glow.rayMarch glowMarch
  dsimp only
  have hh := glowGo_nan_no_hit 100 (F.val 0) (F.val 0)
  rw [if_neg (by rw [hh]; exact Bool.false_ne_true)]

theorem hitGo_nan :
    ∀ (n : ℕ) (t : F),
      (hitGo (fun p => Hit.sdfSphereF p (V3F.ofV3 ⟨0, 0, 0⟩) (F.val 1))
        ⟨F.nan, F.val 0, F.val 0⟩ (V3F.ofV3 ⟨0, 0, 1⟩) n t).1 =
        F.val (-1) := by
  intro n
  induction n with
  | zero => intro t; rfl
  | succ n ih =>
      intro t
      rw [hitGo_succ]
      have hstep : hitStep (fun p => Hit.sdfSphereF p (V3F.ofV3 ⟨0, 0, 0⟩)
          (F.val 1)) ⟨F.nan, F.val 0, F.val 0⟩ (V3F.ofV3 ⟨0, 0, 1⟩) t =
          HitRes.cont F.nan := by
        unfold hitStep
        dsimp only
        rw [Hit_sdfSphereF_nanx _ _ _ (by simp [V3F.add, V3F.smul])]
        rw [if_neg (F_lt_nan_left _), F_add_nan_right]
        rw [if_neg (F_gt_nan_left _)]
      rw [hstep]
      exact ih F.nan

theorem hit_nan_returns_sentinel :
    Hit.rayMarch (V3F.ofV3 ⟨0, 0, 0⟩) (F.val 1)
      ⟨F.nan, F.val 0, F.val 0⟩ (V3F.ofV3 ⟨0, 0, 1⟩) = F.val (-1) := by
  unfold Hit.rayMarch hitMarch
  exact hitGo_nan 100 (F.val 0)

theorem volStep_nan_fix :
    volStep (fun p => Vol.sdfSphereF p (V3F.ofV3 ⟨0, 0, 0⟩) (F.val 1)
        (F.val 0)) ⟨F.nan, F.val 0, F.val 0⟩ (V3F.ofV3 ⟨0, 0, 1⟩)
      ⟨F.nan, F.nan, ⟨F.nan, F.nan, F.nan⟩, F.nan⟩ =
      VolRes.cont ⟨F.nan, F.nan, ⟨F.nan, F.nan, F.nan⟩, F.nan⟩ := by
  unfold volStep
  rw [if_neg (by
    rintro (h | h | h)
    · exact F_gt_nan_left _ h
    · exact F_lt_nan_left _ h
    · exact F_gt_nan_left _ h)]
  dsimp only
  rw [Vol_sdfSphereF_nanx _ _ _ _ (by simp [V3F.add, V3F.smul])]
  simp [V3F.addC]

theorem volGo_nan_fix :
    ∀ n : ℕ,
      ((volGo (fun p => Vol.sdfSphereF p (V3F.ofV3 ⟨0, 0, 0⟩) (F.val 1)
        (F.val 0)) ⟨F.nan, F.val 0, F.val 0⟩ (V3F.ofV3 ⟨0, 0, 1⟩) n
        ⟨F.nan, F.nan, ⟨F.nan, F.nan, F.nan⟩, F.nan⟩).1) =
        ⟨F.nan, F.nan, ⟨F.nan, F.nan, F.nan⟩, F.nan⟩ := by
  intro n
  induction n with
  | zero => rfl
  | succ n ih =>
      rw [volGo_succ, volStep_nan_fix]
      exact ih

theorem vol_march_nan :
    ((volMarch (fun p => Vol.sdfSphereF p (V3F.ofV3 ⟨0, 0, 0⟩) (F.val 1)
      (F.val 0)) ⟨F.nan, F.val 0, F.val 0⟩ (V3F.ofV3 ⟨0, 0, 1⟩)).1) =
      ⟨F.nan, F.nan, ⟨F.nan, F.nan, F.nan⟩, F.nan⟩ := by
  unfold volMarch
  have hg0 : ¬ (F.gt (F.val 0) (F.val (1 - 1 / 200)) ∨
      F.lt (F.val 1) (F.val 0.0001 * F.val 0) ∨
      F.gt (F.val 0) (F.val 100)) := by
    rintro (h | h | h)
    · rw [F_gt_val] at h
      norm_num at h
    · rw [F_mul_val, F_lt_val] at h
      norm_num at h
    · rw [F_gt_val] at h
      norm_num at h
  have hstep0 : volStep (fun p => Vol.sdfSphereF p (V3F.ofV3 ⟨0, 0, 0⟩)
      (F.val 1) (F.val 0)) ⟨F.nan, F.val 0, F.val 0⟩ (V3F.ofV3 ⟨0, 0, 1⟩)
      ⟨F.val 0, F.val 0, ⟨F.val 0, F.val 0, F.val 0⟩, F.val 1⟩ =
      VolRes.cont ⟨F.nan, F.nan, ⟨F.nan, F.nan, F.nan⟩, F.nan⟩ := by
    unfold volStep
    rw [if_neg hg0]
    dsimp only
    rw [Vol_sdfSphereF_nanx _ _ _ _ (by simp [V3F.add, V3F.smul])]
    simp [V3F.addC]
  rw [show (64:ℕ) = 63 + 1 from rfl, volGo_succ, hstep0]
  exact volGo_nan_fix 63

/-- Claim C5 evaluated at the failing input (ray origin `(NaN, 0, 0)`,
direction `(0,0,1)`, sphere at the origin, radius 1, time 0, scene color
`(0.2, 0.3, 0.4)`): both `rayMarch` variants return the `-1.0` miss sentinel,
but `computeVolumetricColor` returns a NaN alpha and the final color
`mix(sceneColor, volumetricColor, alpha)` is NaN in every component —
different from the scene color — so the volumetric variant does let NaN
propagate into the final pixel color, contrary to the claim. -/
theorem nan_march_behavior :
    (Glow.rayMarch (V3F.ofV3 ⟨0, 0, 0⟩) (F.val 0)
      ⟨F.nan, F.val 0, F.val 0⟩ (V3F.ofV3 ⟨0, 0, 1⟩)).1 = F.val (-1) ∧
    Hit.rayMarch (V3F.ofV3 ⟨0, 0, 0⟩) (F.val 1)
      ⟨F.nan, F.val 0, F.val 0⟩ (V3F.ofV3 ⟨0, 0, 1⟩) = F.val (-1) ∧
    (Vol.computeVolumetricColor (V3F.ofV3 ⟨0, 0, 0⟩) (F.val 1) (F.val 0)
      ⟨F.nan, F.val 0, F.val 0⟩ (V3F.ofV3 ⟨0, 0, 1⟩)).2 = F.nan ∧
    Vol.mainColor (V3F.ofV3 ⟨0.2, 0.3, 0.4⟩) (V3F.ofV3 ⟨0, 0, 0⟩) (F.val 1)
      (F.val 0) ⟨F.nan, F.val 0, F.val 0⟩ (V3F.ofV3 ⟨0, 0, 1⟩) =
      ⟨F.nan, F.nan, F.nan⟩ ∧
    (⟨F.nan, F.nan, F.nan⟩ : V3F) ≠ V3F.ofV3 ⟨0.2, 0.3, 0.4⟩ := by
  have halpha : (Vol.computeVolumetricColor (V3F.ofV3 ⟨0, 0, 0⟩) (F.val 1)
      (F.val 0) ⟨F.nan, F.val 0, F.val 0⟩ (V3F.ofV3 ⟨0, 0, 1⟩)).2 =
      F.nan := by
    unfold Vol.computeVolumetricColor
    dsimp only
    rw [vol_march_nan]
    exact F_clampF_nan _ _
  refine ⟨glow_nan_returns_sentinel, hit_nan_returns_sentinel, halpha, ?_, ?_⟩
  · unfold Vol.mainColor
    dsimp only
    rw [halpha]
    unfold V3F.mixC
    rw [F_mixF_nan_weight, F_mixF_nan_weight, F_mixF_nan_weight]
  · intro h
    have hx : F.nan = F.val 0.2 := congrArg V3F.x h
    exact F.noConfusion hx

/-- Counterexample to claim C2 as stated: in the glow variant, with the ray
origin at the sphere center (sphere at the origin, radius 1, direction
`(0,0,1)`), the first loop iteration moves `t` from `0` to `-1`, a strict
decrease. -/
theorem glow_t_decreases_inside_sphere :
    (glowStep (fun p => Glow.sdfSphereF p (V3F.ofV3 ⟨0, 0, 0⟩) (F.val 1))
      (F.val 0) (V3F.ofV3 ⟨0, 0, 0⟩) (V3F.ofV3 ⟨0, 0, 1⟩)
      ⟨F.val 0, F.val 0, false⟩).1.t = F.val (-1) ∧
    F.lt (F.val (-1)) (F.val 0) := by
  constructor
  · unfold glowStep
    dsimp only
    rw [V3F_smul_ofV3, V3F_add_ofV3, Glow_sdfSphereF_ofV3]
    have hp : V3.add ⟨0, 0, 0⟩ (V3.smul 0 ⟨0, 0, 1⟩) = ⟨0, 0, 0⟩ := by
      unfold V3.add V3.smul
      norm_num
    rw [hp, Glow_sdfSphere_center, F_add_val]
    norm_num
  · rw [F_lt_val]
    norm_num
